import Mathlib

/-!
Shallow embedding of the per-connection HTTP engine of
`uvicorn/protocols/http.py` and of the lifespan coordinator of
`uvicorn/lifespan/on.py`.

Byte strings (`bytes` in the source) are embedded as `String`, one
character per byte; all byte strings handled by the engine are ASCII,
and `String.toLower`, like `bytes.lower`, lowercases exactly the ASCII
letters.  Mutation of the protocol object is explicit state passing on
the structure `Proto`; calls the engine makes on the transport and on
the event loop (`transport.write`, `transport.close`,
`loop.create_task(consumer ...)`) are recorded in a chronological
action log `Proto.actions`.
-/

namespace Uvicorn

/-- One observable call the engine makes on its environment:
a `transport.write(s)`, a `loop.create_task(self.consumer(message, channels))`
dispatching the request identified by `id`, or a `transport.close()`. -/
inductive Action where
  | write (s : String)
  | dispatch (id : Nat)
  | close
deriving DecidableEq, Repr

/-- The phrase table of `http.HTTPStatus` from the Python standard library,
used by `get_status_line`; codes absent from the enumeration have no phrase. -/
def httpPhrase (status_code : Nat) : Option String :=
  match status_code with
  | 100 => some "Continue"
  | 101 => some "Switching Protocols"
  | 102 => some "Processing"
  | 200 => some "OK"
  | 201 => some "Created"
  | 202 => some "Accepted"
  | 203 => some "Non-Authoritative Information"
  | 204 => some "No Content"
  | 205 => some "Reset Content"
  | 206 => some "Partial Content"
  | 207 => some "Multi-Status"
  | 208 => some "Already Reported"
  | 226 => some "IM Used"
  | 300 => some "Multiple Choices"
  | 301 => some "Moved Permanently"
  | 302 => some "Found"
  | 303 => some "See Other"
  | 304 => some "Not Modified"
  | 305 => some "Use Proxy"
  | 307 => some "Temporary Redirect"
  | 308 => some "Permanent Redirect"
  | 400 => some "Bad Request"
  | 401 => some "Unauthorized"
  | 402 => some "Payment Required"
  | 403 => some "Forbidden"
  | 404 => some "Not Found"
  | 405 => some "Method Not Allowed"
  | 406 => some "Not Acceptable"
  | 407 => some "Proxy Authentication Required"
  | 408 => some "Request Timeout"
  | 409 => some "Conflict"
  | 410 => some "Gone"
  | 411 => some "Length Required"
  | 412 => some "Precondition Failed"
  | 413 => some "Request Entity Too Large"
  | 414 => some "Request-URI Too Long"
  | 415 => some "Unsupported Media Type"
  | 416 => some "Requested Range Not Satisfiable"
  | 417 => some "Expectation Failed"
  | 421 => some "Misdirected Request"
  | 422 => some "Unprocessable Entity"
  | 423 => some "Locked"
  | 424 => some "Failed Dependency"
  | 426 => some "Upgrade Required"
  | 428 => some "Precondition Required"
  | 429 => some "Too Many Requests"
  | 431 => some "Request Header Fields Too Large"
  | 451 => some "Unavailable For Legal Reasons"
  | 500 => some "Internal Server Error"
  | 501 => some "Not Implemented"
  | 502 => some "Bad Gateway"
  | 503 => some "Service Unavailable"
  | 504 => some "Gateway Timeout"
  | 505 => some "HTTP Version Not Supported"
  | 506 => some "Variant Also Negotiates"
  | 507 => some "Insufficient Storage"
  | 508 => some "Loop Detected"
  | 510 => some "Not Extended"
  | 511 => some "Network Authentication Required"
  | _ => none

/-- Models `get_status_line`: `b"HTTP/1.1 " + str(code) + b" " + phrase + b"\r\n"`,
with an empty phrase when `http.HTTPStatus(code)` raises `ValueError`. -/
def get_status_line (status_code : Nat) : String :=
  "HTTP/1.1 " ++ toString status_code ++ " " ++ (httpPhrase status_code).getD "" ++ "\r\n"

/-- The module-level dict
`STATUS_LINE = {code: get_status_line(code) for code in range(100, 600)}`;
`none` models the `KeyError` raised by a lookup outside `range(100, 600)`. -/
def STATUS_LINE (status_code : Nat) : Option String :=
  if 100 ≤ status_code ∧ status_code < 600 then some (get_status_line status_code) else none

def SERVER_HEADER : String := "server: uvicorn\r\n"

def LOW_WATER_LIMIT : Nat := 16384
def HIGH_WATER_LIMIT : Nat := 65536
def MAX_PIPELINED_REQUESTS : Nat := 20

/-- Models `b"%x" % n`: lowercase hexadecimal with no leading zeros. -/
def hexStr (n : Nat) : String := String.mk (Nat.toDigits 16 n)

/-- Models `bytes.lower()`: lowercase the ASCII letters, one character
per byte (`Char.toLower` only maps A-Z, exactly like `bytes.lower`). -/
def strLower (s : String) : String := String.mk (s.data.map Char.toLower)

/-- One message put on a `BodyChannel` queue:
`{'content': ..., 'more_content': ...}`. -/
structure BodyMsg where
  content : String
  more_content : Bool
deriving DecidableEq, Repr

/-- The queue and released flag of a `BodyChannel` instance. -/
structure BodyChannel where
  queue : List BodyMsg
  released : Bool
deriving DecidableEq, Repr

/-- A message passed to `ReplyChannel.send`: the engine reads
`message.get('status')`, `message.get('headers', [])`,
`message.get('content', b'')` and `message.get('more_content', False)`. -/
structure Message where
  status : Option Nat
  headers : List (String × String)
  content : String
  more_content : Bool
deriving DecidableEq, Repr

/-- Mutable state of one `HttpProtocol` instance (the fields of its
`__slots__` that the engine reads or writes), together with the two
fields of its single shared `ReplyChannel` (`base_channels['reply']` is
one object shared by every request of the connection because
`self.base_channels.copy()` is a shallow dict copy), the store of
`BodyChannel` objects keyed by request id, and the action log.

`transport = false` models `self.transport is None`.  `curId` identifies
the `(message, channels)` pair currently being parsed; `curHasBody`
models `'body' in self.channels`; `bodies` associates each request id
that ever got a body channel with that channel's state.
`parser_keep_alive` models the value of
`self.request_parser.should_keep_alive()`. -/
structure Proto where
  transport : Bool
  actions : List Action
  read_paused : Bool
  write_paused : Bool
  buffer_size : Nat
  high_water_limit : Nat
  low_water_limit : Nat
  max_pipelined_requests : Nat
  active_request : Option Nat
  pipeline_queue : List Nat
  total_requests : Nat
  use_chunked_encoding : Bool
  should_keep_alive : Bool
  parser_keep_alive : Bool
  dateHeader : String
  upgrade : Option String
  curId : Nat
  curHasBody : Bool
  headers : List (String × String)
  bodies : List (Nat × BodyChannel)
deriving DecidableEq, Repr

/-- A fresh connection: `HttpProtocol.__init__` followed by
`connection_made(transport)`.  The (environment-dependent) date header
string and parser keep-alive answer are fixed representatives. -/
def initProto : Proto where
  transport := true
  actions := []
  read_paused := false
  write_paused := false
  buffer_size := 0
  high_water_limit := HIGH_WATER_LIMIT
  low_water_limit := LOW_WATER_LIMIT
  max_pipelined_requests := MAX_PIPELINED_REQUESTS
  active_request := none
  pipeline_queue := []
  total_requests := 0
  use_chunked_encoding := false
  should_keep_alive := true
  parser_keep_alive := true
  dateHeader := "date: Tue, 01 Jan 2019 00:00:00 GMT\r\n"
  upgrade := none
  curId := 0
  curHasBody := false
  headers := []
  bodies := []

/-- Models `HttpProtocol.check_pause_reading`. -/
def check_pause_reading (p : Proto) : Proto :=
  if p.transport = false ∨ p.read_paused = true then p
  else if p.buffer_size > p.high_water_limit ∨
          p.pipeline_queue.length ≥ p.max_pipelined_requests then
    { p with read_paused := true }
  else p

/-- Models `HttpProtocol.check_resume_reading`. -/
def check_resume_reading (p : Proto) : Proto :=
  if p.transport = false ∨ p.read_paused = false then p
  else if p.buffer_size < p.low_water_limit ∧
          p.pipeline_queue.length < p.max_pipelined_requests then
    { p with read_paused := false }
  else p

/-- Replace the body channel stored under `id`. -/
def updateBody (bs : List (Nat × BodyChannel)) (id : Nat) (ch : BodyChannel) :
    List (Nat × BodyChannel) :=
  bs.map (fun x => if x.1 = id then (id, ch) else x)

/-- Models `BodyChannel._put` on the channel of request `id`: if not released,
enqueue the message, add its content length to `protocol.buffer_size`,
then `check_pause_reading`. -/
def bodyPut (p : Proto) (id : Nat) (m : BodyMsg) : Proto :=
  match p.bodies.lookup id with
  | none => p
  | some ch =>
    if ch.released then p
    else
      check_pause_reading
        { p with
          bodies := updateBody p.bodies id { ch with queue := ch.queue ++ [m] },
          buffer_size := p.buffer_size + m.content.length }

/-- Models `BodyChannel._release` on the channel of request `id`: drain the
queue, subtract the drained content lengths from `protocol.buffer_size`
(calling `check_resume_reading` only when the drained total is nonzero),
and mark the channel released. -/
def bodyRelease (p : Proto) (id : Nat) : Proto :=
  match p.bodies.lookup id with
  | none => p
  | some ch =>
    let drained := (ch.queue.map (fun m => m.content.length)).sum
    let p := { p with bodies := updateBody p.bodies id { queue := [], released := true } }
    if drained ≠ 0 then
      check_resume_reading { p with buffer_size := p.buffer_size - drained }
    else p

/-- Renders `header_name + b': ' + header_value + b'\r\n'`, as extended onto the
response list for each application-supplied header (original casing). -/
def renderHeader (h : String × String) : String :=
  h.1 ++ ": " ++ h.2 ++ "\r\n"

/-- The `seen_content_length` flag computed by the header loop of
`ReplyChannel.send`. -/
def seenContentLength (headers : List (String × String)) : Bool :=
  headers.any (fun h => strLower h.1 == "content-length")

/-- Whether the header loop of `ReplyChannel.send` saw a
`connection: close` header (which clears `_should_keep_alive`). -/
def sawConnectionClose (headers : List (String × String)) : Bool :=
  headers.any (fun h => strLower h.1 == "connection" && strLower h.2 == "close")

/-- The `if status is not None:` block of `ReplyChannel.send`, given the
status line `sl` already looked up in `STATUS_LINE`: update
`_should_keep_alive` from any `connection: close` header, derive the
framing header when no `content-length` was supplied (setting
`_use_chunked_encoding` when `more_content`), and write the joined
status line, server, date, passthrough headers, framing header and
blank line as one `transport.write`. -/
def sendHead (p : Proto) (m : Message) (sl : String) : Proto :=
  let p := if sawConnectionClose m.headers then { p with should_keep_alive := false } else p
  let framingHeader : String :=
    if seenContentLength m.headers then ""
    else if m.more_content then "transfer-encoding: chunked\r\n"
    else "content-length: " ++ toString m.content.length ++ "\r\n"
  let newChunked : Bool :=
    if seenContentLength m.headers then p.use_chunked_encoding
    else if m.more_content then true
    else p.use_chunked_encoding
  let head := sl ++ SERVER_HEADER ++ p.dateHeader ++
      String.join (m.headers.map renderHeader) ++ framingHeader ++ "\r\n"
  { p with use_chunked_encoding := newChunked,
           actions := p.actions ++ [Action.write head] }

/-- The `if content:` block of `ReplyChannel.send`: nothing for empty
content; otherwise the chunk-framed writes `b'%x\r\n' % len(content)`,
the content, `b'\r\n'` under chunked encoding, or the bare content. -/
def sendContent (p : Proto) (m : Message) : Proto :=
  if m.content = "" then p
  else if p.use_chunked_encoding then
    { p with actions := p.actions ++
        [Action.write (hexStr m.content.length ++ "\r\n"),
         Action.write m.content, Action.write "\r\n"] }
  else { p with actions := p.actions ++ [Action.write m.content] }

/-- The `if not more_content:` block of `ReplyChannel.send`: write the
chunked terminator and reset `_use_chunked_encoding` if it was set;
release the active request's body channel if it has one; then either
close the transport (keep-alive refused by the channel or the parser),
promote the head of the pipeline queue (dispatching its consumer task
and re-checking resume), or clear `active_request`; finally increment
`state['total_requests']`. -/
def sendFinishChunkTerm (p : Proto) : Proto :=
  if p.use_chunked_encoding then
    { p with actions := p.actions ++ [Action.write "0\r\n\r\n"],
             use_chunked_encoding := false }
  else p

/-- Step `message, channels = protocol.active_request or ({}, {})` /
`if 'body' in channels: channels['body']._release()` of the
finalization block. -/
def sendFinishRelease (p : Proto) : Proto :=
  match p.active_request with
  | some id =>
    match p.bodies.lookup id with
    | some _ => bodyRelease p id
    | none => p
  | none => p

/-- Keep-alive decision of the finalization block: close the transport,
or promote the head of the pipeline queue, or clear the active request. -/
def sendFinishKeepAlive (p : Proto) : Proto :=
  if p.should_keep_alive = false ∨ p.parser_keep_alive = false then
    { p with actions := p.actions ++ [Action.close], transport := false }
  else
    match p.pipeline_queue with
    | id :: rest =>
      check_resume_reading
        { p with active_request := some id, pipeline_queue := rest,
                 actions := p.actions ++ [Action.dispatch id] }
    | [] => { p with active_request := none }

def sendFinish (p : Proto) : Proto :=
  let p := sendFinishChunkTerm p
  let p := sendFinishRelease p
  let p := sendFinishKeepAlive p
  { p with total_requests := p.total_requests + 1 }

/-- The error raised out of `ReplyChannel.send`: the `KeyError` from
`STATUS_LINE[status]` on a status outside `range(100, 600)`. -/
inductive SendErr where
  | keyError
deriving DecidableEq, Repr

/-- Models `ReplyChannel.send(message)`: return immediately when the transport
is gone; otherwise serialize the head (when a status is present),
the content, and the finalization block in source order.  The
`STATUS_LINE` lookup happens before any state is mutated, exactly as the
list literal `[STATUS_LINE[status], SERVER_HEADER, DATE_HEADER]` raises
before the header loop runs. -/
def send (p : Proto) (m : Message) : Except SendErr Proto :=
  if p.transport = false then Except.ok p
  else
    let afterHead : Except SendErr Proto :=
      match m.status with
      | none => Except.ok p
      | some s =>
        match STATUS_LINE s with
        | none => Except.error SendErr.keyError
        | some sl => Except.ok (sendHead p m sl)
    match afterHead with
    | Except.error e => Except.error e
    | Except.ok p1 =>
      let p2 := sendContent p1 m
      Except.ok (if m.more_content then p2 else sendFinish p2)

/-- Run `ReplyChannel.send` over a list of messages in order, stopping
at the first raised error. -/
def sendTrace (p : Proto) : List Message → Except SendErr Proto
  | [] => Except.ok p
  | m :: ms =>
    match send p m with
    | Except.ok q => sendTrace q ms
    | Except.error e => Except.error e

/-- The byte strings passed to `transport.write`, in order. -/
def writesOf (l : List Action) : List String :=
  l.filterMap (fun a => match a with | Action.write s => some s | _ => none)

def writes (p : Proto) : List String := writesOf p.actions

/-- The list of actions produced by the `if content:` block of
`ReplyChannel.send` for a given chunked-encoding flag. -/
def contentActs (chunked : Bool) (c : String) : List Action :=
  if c = "" then []
  else if chunked then
    [Action.write (hexStr c.length ++ "\r\n"), Action.write c, Action.write "\r\n"]
  else [Action.write c]

/-- The byte strings a nonempty body chunk contributes to the socket
under chunked encoding (an empty chunk contributes nothing, the source
skipping its `if content:` block). -/
def chunkWrites (c : String) : List String :=
  if c = "" then [] else [hexStr c.length ++ "\r\n", c, "\r\n"]

/-- The single head write of a response: status line, server and date
headers, passthrough headers, the framing header inserted by the
writer, and the blank line. -/
def headBytes (p : Proto) (sl : String) (hs : List (String × String)) (framing : String) : String :=
  sl ++ SERVER_HEADER ++ p.dateHeader ++ String.join (hs.map renderHeader) ++ framing ++ "\r\n"

/-- The byte string written on `expect: 100-continue`. -/
def continueBytes : String := "HTTP/1.1 100 Continue\r\n\r\n"

/-- Models `HttpProtocol.on_message_begin`: fresh `message`/`channels` dicts
(identified by a fresh id supplied by the driver) and an empty header
list.  `self.upgrade` is a protocol slot and is not reset here, exactly
as in the source. -/
def on_message_begin (p : Proto) (id : Nat) : Proto :=
  { p with curId := id, curHasBody := false, headers := [] }

/-- Models `HttpProtocol.on_header`: lowercase the name; remember an `upgrade`
header; write `100 Continue` immediately on `expect: 100-continue`;
append the (lowercased-name, value) pair to the header list. -/
def on_header (p : Proto) (name value : String) : Proto :=
  let name := strLower name
  if name = "upgrade" then
    { p with upgrade := some value, headers := p.headers ++ [(name, value)] }
  else if name = "expect" ∧ strLower value = "100-continue" then
    { p with actions := p.actions ++ [Action.write continueBytes],
             headers := p.headers ++ [(name, value)] }
  else { p with headers := p.headers ++ [(name, value)] }

/-- Models `HttpProtocol.on_body`: on the first body byte of a request, create
its body channel and either dispatch the consumer task (no active
request) or append the request to the pipeline queue and
`check_pause_reading`; then `_put` the chunk with `more_content=True`. -/
def on_body (p : Proto) (body : String) : Proto :=
  let p :=
    if p.curHasBody = false then
      let p := { p with bodies := p.bodies ++ [(p.curId, BodyChannel.mk [] false)], curHasBody := true }
      match p.active_request with
      | none =>
        { p with actions := p.actions ++ [Action.dispatch p.curId],
                 active_request := some p.curId }
      | some _ =>
        check_pause_reading { p with pipeline_queue := p.pipeline_queue ++ [p.curId] }
    else p
  bodyPut p p.curId ⟨body, true⟩

/-- Models `HttpProtocol.on_message_complete`: nothing once an upgrade header
was seen; for a bodiless request, dispatch or enqueue it; otherwise
`_put` the terminal `more_content=False` message. -/
def on_message_complete (p : Proto) : Proto :=
  if p.upgrade.isSome then p
  else if p.curHasBody = false then
    match p.active_request with
    | none =>
      { p with actions := p.actions ++ [Action.dispatch p.curId],
               active_request := some p.curId }
    | some _ =>
      check_pause_reading { p with pipeline_queue := p.pipeline_queue ++ [p.curId] }
  else bodyPut p p.curId ⟨"", false⟩

/-- Models `HttpProtocol.connection_lost`. -/
def connection_lost (p : Proto) : Proto :=
  { p with transport := false }

/-- A parse event delivered by the `HttpRequestParser` callbacks within
one `data_received` call. -/
inductive Ev where
  | begin (id : Nat)
  | header (name value : String)
  | body (b : String)
  | complete
deriving DecidableEq, Repr

def stepEv (p : Proto) : Ev → Proto
  | Ev.begin id => on_message_begin p id
  | Ev.header name value => on_header p name value
  | Ev.body b => on_body p b
  | Ev.complete => on_message_complete p

/-- Process the parse events of one data chunk in order.  A transport
pause takes effect only between `data_received` calls: all events of an
already-received chunk are delivered even if reading gets paused midway
through, which is exactly the source's behavior. -/
def processEvents (p : Proto) (evs : List Ev) : Proto :=
  evs.foldl stepEv p

/-- One input to the cooperative single-threaded connection machine:
either a parse event, or an application call of `ReplyChannel.send`
(a raised `KeyError` leaves the state as mutated so far, which for this
`send` is unmutated, the lookup preceding any mutation). -/
inductive Inp where
  | ev (e : Ev)
  | appSend (m : Message)
deriving DecidableEq, Repr

def stepInp (p : Proto) : Inp → Proto
  | Inp.ev e => stepEv p e
  | Inp.appSend m =>
    match send p m with
    | Except.ok q => q
    | Except.error _ => p

/-- Run the connection machine over a list of inputs. -/
def run (p : Proto) (l : List Inp) : Proto :=
  l.foldl stepInp p

end Uvicorn

namespace Lifespan

/-- State of a `LifespanOn` instance: the configured lifespan mode
(`config.lifespan`), the two `asyncio.Event` flags, the queue of
messages the application will `receive`, and the two outcome flags. -/
structure LifespanOn where
  lifespan : String
  startup_event : Bool
  shutdown_event : Bool
  receive_queue : List String
  error_occured : Bool
  should_exit : Bool
deriving DecidableEq, Repr

/-- Models `LifespanOn.__init__` with the given `config.lifespan` mode. -/
def initLifespan (mode : String) : LifespanOn where
  lifespan := mode
  startup_event := false
  shutdown_event := false
  receive_queue := []
  error_occured := false
  should_exit := false

/-- The errors raised by the asserts of `LifespanOn.send`: a message
type outside the accepted tuple, or a violated
`STATE_TRANSITION_ERROR` assertion. -/
inductive LifespanErr where
  | invalidMessage
  | stateTransition
deriving DecidableEq, Repr

/-- Models `LifespanOn.send(message)`, keyed by `message["type"]`: the leading
assert accepts only `lifespan.startup.complete`,
`lifespan.startup.failed` and `lifespan.shutdown.complete`; each branch
then asserts the event-flag preconditions and sets its event (the
failed branch also records the error and requests exit). -/
def lifespanSend (st : LifespanOn) (mtype : String) : Except LifespanErr LifespanOn :=
  if mtype ≠ "lifespan.startup.complete" ∧ mtype ≠ "lifespan.startup.failed" ∧
     mtype ≠ "lifespan.shutdown.complete" then
    Except.error LifespanErr.invalidMessage
  else if mtype = "lifespan.startup.complete" then
    if st.startup_event = true ∨ st.shutdown_event = true then
      Except.error LifespanErr.stateTransition
    else Except.ok { st with startup_event := true }
  else if mtype = "lifespan.startup.failed" then
    if st.startup_event = true ∨ st.shutdown_event = true then
      Except.error LifespanErr.stateTransition
    else Except.ok { st with startup_event := true, error_occured := true, should_exit := true }
  else
    if st.startup_event = false ∨ st.shutdown_event = true then
      Except.error LifespanErr.stateTransition
    else Except.ok { st with shutdown_event := true }

/-- The first half of `LifespanOn.startup`: create the main task and
queue `{"type": "lifespan.startup"}`. -/
def startupBegin (st : LifespanOn) : LifespanOn :=
  { st with receive_queue := st.receive_queue ++ ["lifespan.startup"] }

/-- Models `LifespanOn.main` when the application raises before sending any
message: the handler returns early if `should_exit` is already set,
otherwise records `error_occured`; the `finally` block sets both events
in either case. -/
def mainRaise (st : LifespanOn) : LifespanOn :=
  let st := if st.should_exit then st else { st with error_occured := true }
  { st with startup_event := true, shutdown_event := true }

/-- The tail of `LifespanOn.startup` after `startup_event` is set:
exit is requested only when an error occurred and either `should_exit`
was already set or the mode is `"on"`. -/
def startupFinish (st : LifespanOn) : LifespanOn :=
  if st.error_occured = true ∧ (st.should_exit = true ∨ st.lifespan = "on") then
    { st with should_exit := true }
  else st

/-- Models `LifespanOn.shutdown`: return immediately when an error occurred,
otherwise queue `{"type": "lifespan.shutdown"}` (and await the
shutdown event, which holds no state). -/
def lifespanShutdown (st : LifespanOn) : LifespanOn :=
  if st.error_occured then st
  else { st with receive_queue := st.receive_queue ++ ["lifespan.shutdown"] }

end Lifespan

namespace Uvicorn

theorem writesOf_append (a b : List Action) : writesOf (a ++ b) = writesOf a ++ writesOf b := by
  simp [writesOf]

theorem check_pause_reading_eq_or (p : Proto) :
    check_pause_reading p = p ∨ check_pause_reading p = { p with read_paused := true } := by
  unfold check_pause_reading
  split
  · exact Or.inl rfl
  · split
    · exact Or.inr rfl
    · exact Or.inl rfl

theorem check_resume_reading_eq_or (p : Proto) :
    check_resume_reading p = p ∨ check_resume_reading p = { p with read_paused := false } := by
  unfold check_resume_reading
  split
  · exact Or.inl rfl
  · split
    · exact Or.inr rfl
    · exact Or.inl rfl

/-- Both flow-control checks touch only the `read_paused` flag. -/
theorem check_pause_reading_obs (p : Proto) :
    (check_pause_reading p).actions = p.actions ∧
    (check_pause_reading p).transport = p.transport ∧
    (check_pause_reading p).pipeline_queue = p.pipeline_queue ∧
    (check_pause_reading p).max_pipelined_requests = p.max_pipelined_requests ∧
    (check_pause_reading p).total_requests = p.total_requests ∧
    (check_pause_reading p).use_chunked_encoding = p.use_chunked_encoding ∧
    (check_pause_reading p).should_keep_alive = p.should_keep_alive ∧
    (check_pause_reading p).parser_keep_alive = p.parser_keep_alive := by
  rcases check_pause_reading_eq_or p with h | h <;> rw [h] <;> exact ⟨rfl, rfl, rfl, rfl, rfl, rfl, rfl, rfl⟩

theorem check_resume_reading_obs (p : Proto) :
    (check_resume_reading p).actions = p.actions ∧
    (check_resume_reading p).transport = p.transport ∧
    (check_resume_reading p).pipeline_queue = p.pipeline_queue ∧
    (check_resume_reading p).max_pipelined_requests = p.max_pipelined_requests ∧
    (check_resume_reading p).total_requests = p.total_requests ∧
    (check_resume_reading p).use_chunked_encoding = p.use_chunked_encoding ∧
    (check_resume_reading p).should_keep_alive = p.should_keep_alive ∧
    (check_resume_reading p).parser_keep_alive = p.parser_keep_alive := by
  rcases check_resume_reading_eq_or p with h | h <;> rw [h] <;> exact ⟨rfl, rfl, rfl, rfl, rfl, rfl, rfl, rfl⟩

theorem check_pause_reading_paused_mono (p : Proto) (h : p.read_paused = true) :
    (check_pause_reading p).read_paused = true := by
  rcases check_pause_reading_eq_or p with h2 | h2
  · rw [h2]
    exact h
  · rw [h2]

/-- When the transport is up, `check_pause_reading` leaves `read_paused`
set whenever the pipeline queue is at or above capacity. -/
theorem check_pause_reading_at_cap (p : Proto) (ht : p.transport = true)
    (hc : p.pipeline_queue.length ≥ p.max_pipelined_requests) :
    (check_pause_reading p).read_paused = true := by
  unfold check_pause_reading
  by_cases hp : p.read_paused = true
  · split
    · exact hp
    · split
      · rfl
      · exact hp
  · have hp' : p.read_paused = false := by
      cases h : p.read_paused
      · rfl
      · exact absurd h hp
    rw [ht, hp']
    simp [hc]

/-- Models `BodyChannel._put`: its result is either the unchanged state or a
pause check on a state that differs only in `bodies` and `buffer_size`. -/
theorem bodyPut_eq_or (p : Proto) (id : Nat) (m : BodyMsg) :
    bodyPut p id m = p ∨
    ∃ bs b, bodyPut p id m = check_pause_reading { p with bodies := bs, buffer_size := b } := by
  unfold bodyPut
  cases h : p.bodies.lookup id
  · exact Or.inl rfl
  · dsimp only
    split
    · exact Or.inl rfl
    · exact Or.inr ⟨_, _, rfl⟩

theorem bodyPut_obs (p : Proto) (id : Nat) (m : BodyMsg) :
    (bodyPut p id m).actions = p.actions ∧
    (bodyPut p id m).transport = p.transport ∧
    (bodyPut p id m).pipeline_queue = p.pipeline_queue ∧
    (bodyPut p id m).max_pipelined_requests = p.max_pipelined_requests ∧
    (bodyPut p id m).total_requests = p.total_requests ∧
    (bodyPut p id m).use_chunked_encoding = p.use_chunked_encoding ∧
    (bodyPut p id m).should_keep_alive = p.should_keep_alive ∧
    (bodyPut p id m).parser_keep_alive = p.parser_keep_alive := by
  rcases bodyPut_eq_or p id m with h | ⟨bs, b, h⟩ <;> rw [h]
  · exact ⟨rfl, rfl, rfl, rfl, rfl, rfl, rfl, rfl⟩
  · rcases check_pause_reading_eq_or { p with bodies := bs, buffer_size := b } with h2 | h2 <;>
      rw [h2] <;> exact ⟨rfl, rfl, rfl, rfl, rfl, rfl, rfl, rfl⟩

theorem bodyPut_paused_mono (p : Proto) (id : Nat) (m : BodyMsg) (h : p.read_paused = true) :
    (bodyPut p id m).read_paused = true := by
  rcases bodyPut_eq_or p id m with h2 | ⟨bs, b, h2⟩ <;> rw [h2]
  · exact h
  · exact check_pause_reading_paused_mono _ h

theorem bodyRelease_eq_or (p : Proto) (id : Nat) :
    bodyRelease p id = p ∨
    (∃ bs, bodyRelease p id = { p with bodies := bs }) ∨
    (∃ bs b, bodyRelease p id = check_resume_reading { p with bodies := bs, buffer_size := b }) := by
  unfold bodyRelease
  cases h : p.bodies.lookup id
  · exact Or.inl rfl
  · dsimp only
    split
    · exact Or.inr (Or.inr ⟨_, _, rfl⟩)
    · exact Or.inr (Or.inl ⟨_, rfl⟩)

theorem bodyRelease_obs (p : Proto) (id : Nat) :
    (bodyRelease p id).actions = p.actions ∧
    (bodyRelease p id).transport = p.transport ∧
    (bodyRelease p id).pipeline_queue = p.pipeline_queue ∧
    (bodyRelease p id).total_requests = p.total_requests ∧
    (bodyRelease p id).use_chunked_encoding = p.use_chunked_encoding ∧
    (bodyRelease p id).should_keep_alive = p.should_keep_alive ∧
    (bodyRelease p id).parser_keep_alive = p.parser_keep_alive := by
  rcases bodyRelease_eq_or p id with h | ⟨bs, h⟩ | ⟨bs, b, h⟩ <;> rw [h]
  · exact ⟨rfl, rfl, rfl, rfl, rfl, rfl, rfl⟩
  · exact ⟨rfl, rfl, rfl, rfl, rfl, rfl, rfl⟩
  · rcases check_resume_reading_eq_or { p with bodies := bs, buffer_size := b } with h2 | h2 <;>
      rw [h2] <;> exact ⟨rfl, rfl, rfl, rfl, rfl, rfl, rfl⟩

/-- Splitting `sendHead` into its keep-alive update, framing choice and
single head write. -/
theorem sendHead_spec (p : Proto) (m : Message) (sl : String) :
    ∃ ka : Bool, sendHead p m sl =
      { p with
        should_keep_alive := ka,
        use_chunked_encoding :=
          if seenContentLength m.headers then p.use_chunked_encoding
          else if m.more_content then true
          else p.use_chunked_encoding,
        actions := p.actions ++ [Action.write
          (sl ++ SERVER_HEADER ++ p.dateHeader ++
           String.join (m.headers.map renderHeader) ++
           (if seenContentLength m.headers then ""
            else if m.more_content then "transfer-encoding: chunked\r\n"
            else "content-length: " ++ toString m.content.length ++ "\r\n") ++ "\r\n")] } := by
  unfold sendHead
  split
  · exact ⟨false, rfl⟩
  · exact ⟨p.should_keep_alive, rfl⟩

theorem sendContent_spec (p : Proto) (m : Message) :
    sendContent p m = { p with actions := p.actions ++ contentActs p.use_chunked_encoding m.content } := by
  unfold sendContent contentActs
  split
  · simp
  · split <;> rfl

theorem sendFinishChunkTerm_spec (p : Proto) :
    sendFinishChunkTerm p =
      { p with
        actions := p.actions ++ (if p.use_chunked_encoding then [Action.write "0\r\n\r\n"] else []),
        use_chunked_encoding := false } := by
  cases p with
  | mk tr ac rp wp bs hw lw mx ar pq tt uc ka pka dh ug ci chb hd bo =>
    unfold sendFinishChunkTerm
    cases uc <;> simp

theorem sendFinishRelease_obs (p : Proto) :
    (sendFinishRelease p).actions = p.actions ∧
    (sendFinishRelease p).transport = p.transport ∧
    (sendFinishRelease p).total_requests = p.total_requests ∧
    (sendFinishRelease p).use_chunked_encoding = p.use_chunked_encoding ∧
    (sendFinishRelease p).should_keep_alive = p.should_keep_alive ∧
    (sendFinishRelease p).parser_keep_alive = p.parser_keep_alive ∧
    (sendFinishRelease p).pipeline_queue = p.pipeline_queue := by
  unfold sendFinishRelease
  split
  · rename_i id heq
    split
    · have h := bodyRelease_obs p id
      exact ⟨h.1, h.2.1, h.2.2.2.1, h.2.2.2.2.1, h.2.2.2.2.2.1, h.2.2.2.2.2.2, h.2.2.1⟩
    · exact ⟨rfl, rfl, rfl, rfl, rfl, rfl, rfl⟩
  · exact ⟨rfl, rfl, rfl, rfl, rfl, rfl, rfl⟩

/-- The keep-alive step appends only non-write actions and does not
touch the counter or the chunked flag. -/
theorem sendFinishKeepAlive_spec (p : Proto) :
    ∃ t : List Action, (sendFinishKeepAlive p).actions = p.actions ++ t ∧ writesOf t = [] ∧
      (sendFinishKeepAlive p).total_requests = p.total_requests ∧
      (sendFinishKeepAlive p).use_chunked_encoding = p.use_chunked_encoding ∧
      ((sendFinishKeepAlive p).transport = p.transport ∨ (sendFinishKeepAlive p).transport = false) := by
  unfold sendFinishKeepAlive
  split
  · exact ⟨[Action.close], rfl, rfl, rfl, rfl, Or.inr rfl⟩
  · split
    · rename_i id rest heq
      rcases check_resume_reading_eq_or
          { p with active_request := some id, pipeline_queue := rest,
                   actions := p.actions ++ [Action.dispatch id] } with h | h <;> rw [h]
      · exact ⟨[Action.dispatch id], rfl, rfl, rfl, rfl, Or.inl rfl⟩
      · exact ⟨[Action.dispatch id], rfl, rfl, rfl, rfl, Or.inl rfl⟩
    · exact ⟨[], by simp, rfl, rfl, rfl, Or.inl rfl⟩

/-- The whole finalization block: terminator write when chunked, then
only non-write actions; the counter is incremented exactly once and the
chunked flag ends cleared. -/
theorem sendFinish_spec (p : Proto) :
    ∃ t : List Action, (sendFinish p).actions =
        p.actions ++ (if p.use_chunked_encoding then [Action.write "0\r\n\r\n"] else []) ++ t ∧
      writesOf t = [] ∧
      (sendFinish p).total_requests = p.total_requests + 1 ∧
      (sendFinish p).use_chunked_encoding = false := by
  have h1 := sendFinishChunkTerm_spec p
  have hrel := sendFinishRelease_obs (sendFinishChunkTerm p)
  obtain ⟨t, ht, htw, htot, hchunk, _⟩ :=
    sendFinishKeepAlive_spec (sendFinishRelease (sendFinishChunkTerm p))
  refine ⟨t, ?_, htw, ?_, ?_⟩
  · show (sendFinishKeepAlive (sendFinishRelease (sendFinishChunkTerm p))).actions = _
    rw [ht, hrel.1, h1, List.append_assoc]
  · show (sendFinishKeepAlive (sendFinishRelease (sendFinishChunkTerm p))).total_requests + 1 =
      p.total_requests + 1
    rw [htot, hrel.2.2.1, h1]
  · show (sendFinishKeepAlive (sendFinishRelease (sendFinishChunkTerm p))).use_chunked_encoding = false
    rw [hchunk, hrel.2.2.2.1, h1]

theorem transport_ne_false {p : Proto} (ht : p.transport = true) : ¬p.transport = false := by
  simp [ht]

/-- Unfolding `send` when the transport is gone: the early return. -/
theorem send_eq_of_transport_none (p : Proto) (m : Message) (h : p.transport = false) :
    send p m = Except.ok p := by
  unfold send
  rw [if_pos h]

/-- Unfolding `send` on a live transport for a message without a status. -/
theorem send_eq_of_none (p : Proto) (m : Message) (ht : p.transport = true)
    (hs : m.status = none) :
    send p m =
      Except.ok (if m.more_content then sendContent p m else sendFinish (sendContent p m)) := by
  unfold send
  rw [if_neg (transport_ne_false ht), hs]

/-- Unfolding `send` on a live transport for a message whose status is
inside `range(100, 600)`. -/
theorem send_eq_of_some (p : Proto) (m : Message) (s : Nat) (sl : String)
    (ht : p.transport = true) (hs : m.status = some s) (hsl : STATUS_LINE s = some sl) :
    send p m =
      Except.ok (if m.more_content then sendContent (sendHead p m sl) m
                 else sendFinish (sendContent (sendHead p m sl) m)) := by
  unfold send
  rw [if_neg (transport_ne_false ht), hs]
  dsimp only
  rw [hsl]

/-- Unfolding `send` on a live transport for a message whose status is
outside `range(100, 600)`. -/
theorem send_eq_keyError (p : Proto) (m : Message) (s : Nat)
    (ht : p.transport = true) (hs : m.status = some s) (hsl : STATUS_LINE s = none) :
    send p m = Except.error SendErr.keyError := by
  unfold send
  rw [if_neg (transport_ne_false ht), hs]
  dsimp only
  rw [hsl]

theorem sendHead_obs (p : Proto) (m : Message) (sl : String) :
    (sendHead p m sl).transport = p.transport ∧
    (sendHead p m sl).total_requests = p.total_requests ∧
    (sendHead p m sl).dateHeader = p.dateHeader := by
  obtain ⟨ka, h⟩ := sendHead_spec p m sl
  rw [h]
  exact ⟨rfl, rfl, rfl⟩

theorem sendContent_obs (p : Proto) (m : Message) :
    (sendContent p m).transport = p.transport ∧
    (sendContent p m).total_requests = p.total_requests ∧
    (sendContent p m).use_chunked_encoding = p.use_chunked_encoding := by
  rw [sendContent_spec]
  exact ⟨rfl, rfl, rfl⟩

/-- Claim C10: when the transport has been lost or closed
(`protocol.transport is None`) at the time the application calls
`ReplyChannel.send`, the call returns without writing bytes, without
raising, and without mutating any state (the returned state is the
input state itself; in particular `total_requests` is unchanged). -/
theorem c10_send_after_transport_gone (p : Proto) (m : Message) (h : p.transport = false) :
    send p m = Except.ok p := by
  unfold send
  rw [if_pos h]

/-- Witness for C10 at a concrete lost connection and message. -/
theorem c10_send_after_transport_gone_witness :
    send (connection_lost initProto) (Message.mk (some 200) [] "x" false) =
      Except.ok (connection_lost initProto) :=
  c10_send_after_transport_gone (connection_lost initProto) (Message.mk (some 200) [] "x" false) rfl

/-- Claim C6: `state['total_requests']` is incremented exactly once by
the `send` call that carries a cycle's final `more_content=False`
message on a live transport (the point at which the cycle reaches
Complete), and is never incremented by any other `send` call — neither
by a `more_content=True` message nor by a call made after the transport
is gone (a cycle that never completes). -/
theorem c6_total_requests_increment (p : Proto) (m : Message) (q : Proto)
    (h : send p m = Except.ok q) :
    q.total_requests = p.total_requests +
      (if p.transport = true ∧ m.more_content = false then 1 else 0) := by
  by_cases ht : p.transport = false
  · unfold send at h
    rw [if_pos ht] at h
    cases h
    simp [ht]
  · have ht' : p.transport = true := by
      revert ht
      cases p.transport <;> simp
    cases hs : m.status with
    | none =>
      rw [send_eq_of_none p m ht' hs] at h
      cases h
      cases hm : m.more_content
      · obtain ⟨t, _, _, htot, _⟩ := sendFinish_spec (sendContent p m)
        simp [htot, (sendContent_obs p m).2.1, ht']
      · simp [(sendContent_obs p m).2.1]
    | some s =>
      cases hsl : STATUS_LINE s with
      | none =>
        rw [send_eq_keyError p m s ht' hs hsl] at h
        cases h
      | some sl =>
        rw [send_eq_of_some p m s sl ht' hs hsl] at h
        cases h
        cases hm : m.more_content
        · obtain ⟨t, _, _, htot, _⟩ := sendFinish_spec (sendContent (sendHead p m sl) m)
          simp [htot, (sendContent_obs (sendHead p m sl) m).2.1, (sendHead_obs p m sl).2.1, ht']
        · simp [(sendContent_obs (sendHead p m sl) m).2.1, (sendHead_obs p m sl).2.1]

/-- Witness for C6: a complete single-message 200 response on a fresh
connection bumps the counter from 0 to 1. -/
theorem c6_total_requests_increment_witness :
    (sendFinish (sendContent
        (sendHead initProto (Message.mk (some 200) [] "" false) (get_status_line 200))
        (Message.mk (some 200) [] "" false))).total_requests =
      initProto.total_requests + 1 := by
  have h := c6_total_requests_increment initProto (Message.mk (some 200) [] "" false)
    (sendFinish (sendContent
        (sendHead initProto (Message.mk (some 200) [] "" false) (get_status_line 200))
        (Message.mk (some 200) [] "" false)))
    (by rfl)
  simpa using h

/-- Counterexample to claim C3: the claim asserts status-line emission
is total over 100–999, but `STATUS_LINE` is a dict comprehension over
`range(100, 600)` only, so a `http.response.start` with status 600
raises `KeyError` out of `ReplyChannel.send` instead of serializing a
status line. -/
theorem c3_counterexample :
    send initProto (Message.mk (some 600) [] "" false) = Except.error SendErr.keyError ∧
    STATUS_LINE 600 = none := by
  constructor
  · rfl
  · rfl

/-- Claim C3 amended: status-line emission is total over 100–599 (for
those codes `STATUS_LINE` holds `get_status_line` and `send` succeeds),
while any status in 600–999 raises `KeyError` from the
`STATUS_LINE[status]` lookup. -/
theorem c3_status_line_totality (p : Proto) (s : Nat) (ht : p.transport = true)
    (h1 : 100 ≤ s) :
    (s < 600 →
      STATUS_LINE s = some (get_status_line s) ∧
      (send p (Message.mk (some s) [] "" false)).isOk = true) ∧
    (600 ≤ s →
      STATUS_LINE s = none ∧
      send p (Message.mk (some s) [] "" false) = Except.error SendErr.keyError) := by
  constructor
  · intro h2
    have hsl : STATUS_LINE s = some (get_status_line s) := by
      unfold STATUS_LINE
      rw [if_pos ⟨h1, h2⟩]
    refine ⟨hsl, ?_⟩
    rw [send_eq_of_some p (Message.mk (some s) [] "" false) s (get_status_line s) ht rfl hsl]
    rfl
  · intro h2
    have hsl : STATUS_LINE s = none := by
      unfold STATUS_LINE
      rw [if_neg]
      intro hc
      omega
    exact ⟨hsl, send_eq_keyError p (Message.mk (some s) [] "" false) s ht rfl hsl⟩

/-- Witness for the amended C3 at status 200 on a fresh connection. -/
theorem c3_status_line_totality_witness :
    STATUS_LINE 200 = some (get_status_line 200) ∧
    (send initProto (Message.mk (some 200) [] "" false)).isOk = true :=
  (c3_status_line_totality initProto 200 rfl (by decide)).1 (by decide)

/-- Counterexample to claim C1: the claim asserts that an out-of-phase
outbound message (here a second `http.response.start` after a complete
response) fails with `ProtocolError`, closes the connection, and writes
nothing; in fact `ReplyChannel.send` performs no phase validation: the
second start succeeds, a second status line and head is written
(two writes in total), and the keep-alive connection stays open with no
`transport.close()` call. -/
theorem c1_counterexample :
    (sendTrace initProto
        [Message.mk (some 200) [] "" false, Message.mk (some 200) [] "" false]).map
      (fun p => (p.transport, (writes p).length, decide (Action.close ∈ p.actions))) =
      Except.ok (true, 2, false) := by
  rfl

/-- Claim C1 amended: `ReplyChannel.send` performs no phase-transition
validation at all.  Any message whose status is absent or inside
`range(100, 600)` is accepted and serialized regardless of the cycle's
phase — there is no `ProtocolError` — and a message with
`more_content=True` never closes the connection, out-of-phase or not
(the transport is closed only by the keep-alive logic of a final
`more_content=False` message). -/
theorem c1_no_phase_validation (p : Proto) (m : Message)
    (hok : m.status = none ∨ ∃ s, m.status = some s ∧ 100 ≤ s ∧ s < 600) :
    (send p m).isOk = true ∧
    (m.more_content = true → ∀ q, send p m = Except.ok q → q.transport = p.transport) := by
  by_cases ht : p.transport = false
  · rw [send_eq_of_transport_none p m ht]
    exact ⟨rfl, fun _ q hq => by cases hq; rfl⟩
  · have ht' : p.transport = true := by
      revert ht
      cases p.transport <;> simp
    rcases hok with hs | ⟨s, hs, h1, h2⟩
    · rw [send_eq_of_none p m ht' hs]
      refine ⟨rfl, fun hm q hq => ?_⟩
      rw [if_pos hm] at hq
      cases hq
      exact (sendContent_obs p m).1
    · have hsl : STATUS_LINE s = some (get_status_line s) := by
        unfold STATUS_LINE
        rw [if_pos ⟨h1, h2⟩]
      rw [send_eq_of_some p m s (get_status_line s) ht' hs hsl]
      refine ⟨rfl, fun hm q hq => ?_⟩
      rw [if_pos hm] at hq
      cases hq
      rw [(sendContent_obs (sendHead p m (get_status_line s)) m).1]
      exact (sendHead_obs p m (get_status_line s)).1

/-- Witness for the amended C1: a response-body message sent after a
cycle already completed is still accepted. -/
theorem c1_no_phase_validation_witness :
    (send initProto (Message.mk none [] "stray" true)).isOk = true :=
  (c1_no_phase_validation initProto (Message.mk none [] "stray" true) (Or.inl rfl)).1

/-- Claim C5: with the default water marks, `check_pause_reading`
leaves reading paused exactly when it already was or
`buffer_size > 65536` or the pipeline queue is at capacity, and
`check_resume_reading` leaves reading paused exactly when it was paused
and the resume condition (`buffer_size < 16384` and queue below
capacity) fails; pausing while paused and resuming while resumed are
exact no-ops. -/
theorem c5_flow_control (p : Proto) (ht : p.transport = true)
    (hh : p.high_water_limit = 65536) (hl : p.low_water_limit = 16384) :
    ((check_pause_reading p).read_paused = true ↔
      (p.read_paused = true ∨ p.buffer_size > 65536 ∨
       p.pipeline_queue.length ≥ p.max_pipelined_requests)) ∧
    ((check_resume_reading p).read_paused = true ↔
      (p.read_paused = true ∧
       ¬(p.buffer_size < 16384 ∧ p.pipeline_queue.length < p.max_pipelined_requests))) ∧
    (p.read_paused = true → check_pause_reading p = p) ∧
    (p.read_paused = false → check_resume_reading p = p) := by
  refine ⟨?_, ?_, ?_, ?_⟩
  · unfold check_pause_reading
    rw [ht, hh]
    split
    · rename_i h
      simp only [Bool.true_eq_false, false_or] at h
      simp [h]
    · rename_i h
      simp only [Bool.true_eq_false, false_or] at h
      split
      · rename_i h2
        simpa using Or.inr h2
      · rename_i h2
        constructor
        · intro hp
          exact absurd hp h
        · intro hc
          rcases hc with hc | hc
          · exact absurd hc h
          · exact absurd hc h2
  · unfold check_resume_reading
    rw [ht, hl]
    split
    · rename_i h
      simp only [Bool.true_eq_false, false_or] at h
      simp [h]
    · rename_i h
      simp only [Bool.true_eq_false, false_or] at h
      have hp : p.read_paused = true := by
        revert h
        cases p.read_paused <;> simp
      split
      · rename_i h2
        simp [hp, h2]
      · rename_i h2
        simp [hp, h2]
  · intro h
    unfold check_pause_reading
    rw [if_pos (Or.inr h)]
  · intro h
    unfold check_resume_reading
    rw [if_pos (Or.inr h)]

/-- Witness for C5: resuming a connection that is not paused is a no-op. -/
theorem c5_flow_control_witness : check_resume_reading initProto = initProto :=
  (c5_flow_control initProto rfl rfl rfl).2.2.2 rfl

theorem writesOf_contentActs_true (c : String) :
    writesOf (contentActs true c) = chunkWrites c := by
  unfold contentActs chunkWrites
  split
  · rfl
  · rfl

theorem writesOf_contentActs_false (c : String) :
    writesOf (contentActs false c) = if c = "" then [] else [c] := by
  unfold contentActs
  split
  · rfl
  · rfl

/-- Sending a `more_content=True` body message while chunked encoding is
active only appends the chunk-framed writes. -/
theorem send_mid_chunk (p : Proto) (c : String) (ht : p.transport = true)
    (hc : p.use_chunked_encoding = true) :
    send p (Message.mk none [] c true) =
      Except.ok { p with actions := p.actions ++ contentActs true c } := by
  rw [send_eq_of_none p (Message.mk none [] c true) ht rfl]
  rw [if_pos rfl, sendContent_spec, hc]

/-- Running a whole list of `more_content=True` body messages under
chunked encoding appends the concatenation of their framed writes. -/
theorem sendTrace_mid_chunks (cs : List String) (p : Proto) (ht : p.transport = true)
    (hc : p.use_chunked_encoding = true) :
    sendTrace p (cs.map (fun c => Message.mk none [] c true)) =
      Except.ok { p with actions := p.actions ++ (cs.map (contentActs true)).flatten } := by
  induction cs generalizing p with
  | nil => simp [sendTrace]
  | cons c cs ih =>
    simp only [List.map_cons]
    unfold sendTrace
    rw [send_mid_chunk p c ht hc]
    dsimp only
    rw [ih { p with actions := p.actions ++ contentActs true c } ht hc]
    simp [List.append_assoc]

/-- Sending the final `more_content=False` body message under chunked
encoding appends its framed writes, then the `0\r\n\r\n` terminator,
then only non-write actions. -/
theorem send_final_chunk (p : Proto) (c : String) (ht : p.transport = true)
    (hc : p.use_chunked_encoding = true) :
    ∃ q t, send p (Message.mk none [] c false) = Except.ok q ∧
      q.actions = p.actions ++ contentActs true c ++ [Action.write "0\r\n\r\n"] ++ t ∧
      writesOf t = [] := by
  rw [send_eq_of_none p (Message.mk none [] c false) ht rfl]
  dsimp only
  obtain ⟨t, ha, hw, _, _⟩ := sendFinish_spec (sendContent p (Message.mk none [] c false))
  refine ⟨sendFinish (sendContent p (Message.mk none [] c false)), t, rfl, ?_, hw⟩
  rw [ha, sendContent_spec]
  dsimp only
  rw [hc]
  simp [List.append_assoc]

/-- Sending the `http.response.start` message of a chunked cycle: the
head (with the inserted `transfer-encoding: chunked` header) is written
as one write, the start's own content is chunk-framed, and the
channel's chunked flag is set. -/
theorem send_start_chunked (p : Proto) (s : Nat) (sl : String) (hs : List (String × String))
    (c0 : String) (ht : p.transport = true) (hsl : STATUS_LINE s = some sl)
    (hseen : seenContentLength hs = false) :
    ∃ ka, send p (Message.mk (some s) hs c0 true) =
      Except.ok
        { p with should_keep_alive := ka, use_chunked_encoding := true,
                 actions := p.actions ++
                   [Action.write (headBytes p sl hs "transfer-encoding: chunked\r\n")] ++
                   contentActs true c0 } := by
  rw [send_eq_of_some p (Message.mk (some s) hs c0 true) s sl ht rfl hsl]
  rw [if_pos rfl]
  obtain ⟨ka, hhead⟩ := sendHead_spec p (Message.mk (some s) hs c0 true) sl
  rw [hhead]
  dsimp only
  rw [hseen]
  rw [sendContent_spec]
  dsimp only
  refine ⟨ka, ?_⟩
  simp [headBytes, List.append_assoc]

theorem sendTrace_cons (p : Proto) (m : Message) (ms : List Message) :
    sendTrace p (m :: ms) =
      match send p m with
      | Except.ok q => sendTrace q ms
      | Except.error e => Except.error e := rfl

theorem sendTrace_append_ok (l1 l2 : List Message) (p q : Proto)
    (h : sendTrace p l1 = Except.ok q) :
    sendTrace p (l1 ++ l2) = sendTrace q l2 := by
  induction l1 generalizing p with
  | nil =>
    unfold sendTrace at h
    cases h
    rfl
  | cons m ms ih =>
    rw [List.cons_append, sendTrace_cons]
    rw [sendTrace_cons] at h
    cases hm : send p m with
    | ok r =>
      rw [hm] at h
      dsimp only at h ⊢
      exact ih r h
    | error e =>
      rw [hm] at h
      cases h

theorem writesOf_cons_write (s : String) (l : List Action) :
    writesOf (Action.write s :: l) = s :: writesOf l := rfl

theorem writesOf_flatten_chunks (cs : List String) :
    writesOf ((cs.map (contentActs true)).flatten) = (cs.map chunkWrites).flatten := by
  induction cs with
  | nil => rfl
  | cons c cs ih =>
    simp only [List.map_cons, List.flatten_cons, writesOf_append, ih,
      writesOf_contentActs_true]

/-- Claim C2: for a response whose application headers carry no
`content-length`, the writer inserts `content-length: <n>` and writes
the body unframed when the response is a single `more_content=False`
message, and otherwise inserts `transfer-encoding: chunked`, writes
every body chunk as `<hex-len>\r\n<bytes>\r\n` (`chunkWrites`; a chunk
with empty content contributes no bytes, the source skipping its
`if content:` block), and finalizes with `0\r\n\r\n`. -/
theorem c2_response_framing :
    (∀ (p : Proto) (s : Nat) (sl : String) (hs : List (String × String)) (c : String),
      p.transport = true → p.use_chunked_encoding = false →
      STATUS_LINE s = some sl → seenContentLength hs = false →
      ∃ q, send p (Message.mk (some s) hs c false) = Except.ok q ∧
        writes q = writes p ++
          headBytes p sl hs ("content-length: " ++ toString c.length ++ "\r\n") ::
          (if c = "" then [] else [c])) ∧
    (∀ (p : Proto) (s : Nat) (sl : String) (hs : List (String × String))
      (c0 : String) (cs : List String) (cl : String),
      p.transport = true → p.use_chunked_encoding = false →
      STATUS_LINE s = some sl → seenContentLength hs = false →
      ∃ q, sendTrace p (Message.mk (some s) hs c0 true ::
            (cs.map (fun c => Message.mk none [] c true) ++ [Message.mk none [] cl false])) =
          Except.ok q ∧
        writes q = writes p ++
          headBytes p sl hs "transfer-encoding: chunked\r\n" ::
          ((((c0 :: cs) ++ [cl]).map chunkWrites).flatten ++ ["0\r\n\r\n"])) := by
  constructor
  · intro p s sl hs c ht hc hsl hseen
    obtain ⟨ka, hhead⟩ := sendHead_spec p (Message.mk (some s) hs c false) sl
    have hstate : sendHead p (Message.mk (some s) hs c false) sl =
        { p with should_keep_alive := ka, use_chunked_encoding := false,
                 actions := p.actions ++ [Action.write
                   (headBytes p sl hs ("content-length: " ++ toString c.length ++ "\r\n"))] } := by
      rw [hhead]
      simp [hseen, hc, headBytes]
    have hsend : send p (Message.mk (some s) hs c false) =
        Except.ok (sendFinish
          { p with should_keep_alive := ka, use_chunked_encoding := false,
                   actions := (p.actions ++ [Action.write
                     (headBytes p sl hs ("content-length: " ++ toString c.length ++ "\r\n"))]) ++
                     contentActs false c }) := by
      rw [send_eq_of_some p (Message.mk (some s) hs c false) s sl ht rfl hsl]
      dsimp only
      rw [hstate, sendContent_spec]
      rfl
    obtain ⟨t, ha, hw, _, _⟩ := sendFinish_spec
      { p with should_keep_alive := ka, use_chunked_encoding := false,
               actions := (p.actions ++ [Action.write
                 (headBytes p sl hs ("content-length: " ++ toString c.length ++ "\r\n"))]) ++
                 contentActs false c }
    refine ⟨_, hsend, ?_⟩
    unfold writes
    rw [ha]
    dsimp only
    simp [writesOf_append, writesOf_cons_write, writesOf_contentActs_false, hw, writes]
  · intro p s sl hs c0 cs cl ht hc hsl hseen
    obtain ⟨ka, hstart⟩ := send_start_chunked p s sl hs c0 ht hsl hseen
    have h1 : sendTrace p (Message.mk (some s) hs c0 true ::
          (cs.map (fun c => Message.mk none [] c true) ++ [Message.mk none [] cl false])) =
        sendTrace
          { p with should_keep_alive := ka, use_chunked_encoding := true,
                   actions := p.actions ++
                     [Action.write (headBytes p sl hs "transfer-encoding: chunked\r\n")] ++
                     contentActs true c0 }
          (cs.map (fun c => Message.mk none [] c true) ++ [Message.mk none [] cl false]) := by
      rw [sendTrace_cons, hstart]
    have h2 := sendTrace_mid_chunks cs
      { p with should_keep_alive := ka, use_chunked_encoding := true,
               actions := p.actions ++
                 [Action.write (headBytes p sl hs "transfer-encoding: chunked\r\n")] ++
                 contentActs true c0 } ht rfl
    have h3 := sendTrace_append_ok (cs.map (fun c => Message.mk none [] c true))
      [Message.mk none [] cl false] _ _ h2
    obtain ⟨q, t, hfin, hacts, hwt⟩ := send_final_chunk
      { p with should_keep_alive := ka, use_chunked_encoding := true,
               actions := (p.actions ++
                 [Action.write (headBytes p sl hs "transfer-encoding: chunked\r\n")] ++
                 contentActs true c0) ++ (cs.map (contentActs true)).flatten } cl ht rfl
    have h4 : sendTrace
        { p with should_keep_alive := ka, use_chunked_encoding := true,
                 actions := (p.actions ++
                   [Action.write (headBytes p sl hs "transfer-encoding: chunked\r\n")] ++
                   contentActs true c0) ++ (cs.map (contentActs true)).flatten }
        [Message.mk none [] cl false] = Except.ok q := by
      rw [sendTrace_cons, hfin]
      rfl
    refine ⟨q, ?_, ?_⟩
    · rw [h1, h3, h4]
    · unfold writes
      rw [hacts]
      dsimp only
      simp [writesOf_append, writesOf_cons_write, writesOf_contentActs_true, writesOf_flatten_chunks, hwt, writes]

/-- Witness for C2 at concrete responses: a one-message `Hello` body
gets `content-length: 5` and an unframed body; a two-chunk response
gets chunked framing and the terminator. -/
theorem c2_response_framing_witness :
    (∃ q, send initProto (Message.mk (some 200) [] "Hello" false) = Except.ok q ∧
      writes q = writes initProto ++
        headBytes initProto (get_status_line 200) [] ("content-length: " ++ toString ("Hello".length) ++ "\r\n") ::
        (if "Hello" = "" then [] else ["Hello"])) ∧
    (∃ q, sendTrace initProto (Message.mk (some 200) [] "ab" true ::
          (["cd"].map (fun c => Message.mk none [] c true) ++ [Message.mk none [] "" false])) =
        Except.ok q ∧
      writes q = writes initProto ++
        headBytes initProto (get_status_line 200) [] "transfer-encoding: chunked\r\n" ::
        (((("ab" :: ["cd"]) ++ [""]).map chunkWrites).flatten ++ ["0\r\n\r\n"])) :=
  ⟨c2_response_framing.1 initProto 200 (get_status_line 200) [] "Hello" rfl rfl rfl rfl,
   c2_response_framing.2 initProto 200 (get_status_line 200) [] "ab" ["cd"] "" rfl rfl rfl rfl⟩

theorem stepEv_begin_eq (p : Proto) (id : Nat) : stepEv p (Ev.begin id) = on_message_begin p id := rfl

theorem stepEv_header_eq (p : Proto) (n v : String) : stepEv p (Ev.header n v) = on_header p n v := rfl

theorem stepEv_body_eq (p : Proto) (b : String) : stepEv p (Ev.body b) = on_body p b := rfl

theorem stepEv_complete_eq (p : Proto) : stepEv p Ev.complete = on_message_complete p := rfl

/-- Models `on_header` as a record update of headers, upgrade and actions only. -/
theorem on_header_cases (p : Proto) (n v : String) :
    ∃ hdrs up acts, on_header p n v = { p with headers := hdrs, upgrade := up, actions := acts } := by
  unfold on_header
  dsimp only
  split
  · exact ⟨_, _, _, rfl⟩
  · split
    · exact ⟨_, _, _, rfl⟩
    · exact ⟨_, _, _, rfl⟩

/-- Case analysis of `on_body`: a `_put` on a state that either keeps
the pipeline queue (released or first-chunk dispatch) or appends the
current request and runs the pause check. -/
theorem on_body_cases (p : Proto) (b : String) :
    ∃ X, on_body p b = bodyPut X X.curId (BodyMsg.mk b true) ∧
      X.transport = p.transport ∧ X.max_pipelined_requests = p.max_pipelined_requests ∧
      ((X.pipeline_queue = p.pipeline_queue ∧ X.read_paused = p.read_paused) ∨
       (X.pipeline_queue = p.pipeline_queue ++ [p.curId] ∧
        X = check_pause_reading
          { p with bodies := p.bodies ++ [(p.curId, BodyChannel.mk [] false)],
                   curHasBody := true,
                   pipeline_queue := p.pipeline_queue ++ [p.curId] })) := by
  unfold on_body
  dsimp only
  split
  · split
    · exact ⟨_, rfl, rfl, rfl, Or.inl ⟨rfl, rfl⟩⟩
    · refine ⟨_, rfl, ?_, ?_, Or.inr ⟨?_, rfl⟩⟩
      · exact (check_pause_reading_obs _).2.1
      · exact (check_pause_reading_obs _).2.2.2.1
      · exact (check_pause_reading_obs _).2.2.1
  · exact ⟨p, rfl, rfl, rfl, Or.inl ⟨rfl, rfl⟩⟩

/-- Case analysis of `on_message_complete`. -/
theorem on_message_complete_cases (p : Proto) :
    on_message_complete p = p ∨
    (∃ acts ar, on_message_complete p = { p with actions := acts, active_request := ar }) ∨
    on_message_complete p =
      check_pause_reading { p with pipeline_queue := p.pipeline_queue ++ [p.curId] } ∨
    on_message_complete p = bodyPut p p.curId (BodyMsg.mk "" false) := by
  unfold on_message_complete
  split
  · exact Or.inl rfl
  · split
    · split
      · exact Or.inr (Or.inl ⟨_, _, rfl⟩)
      · exact Or.inr (Or.inr (Or.inl rfl))
    · exact Or.inr (Or.inr (Or.inr rfl))

/-- Parse events change neither the transport nor the configured
pipeline capacity. -/
theorem stepEv_obs (p : Proto) (e : Ev) :
    (stepEv p e).transport = p.transport ∧
    (stepEv p e).max_pipelined_requests = p.max_pipelined_requests := by
  cases e with
  | begin id => exact ⟨rfl, rfl⟩
  | header n v =>
    obtain ⟨hdrs, up, acts, h⟩ := on_header_cases p n v
    rw [stepEv_header_eq, h]
    exact ⟨rfl, rfl⟩
  | body b =>
    obtain ⟨X, h, h1, h2, _⟩ := on_body_cases p b
    rw [stepEv_body_eq, h, (bodyPut_obs _ _ _).2.1, (bodyPut_obs _ _ _).2.2.2.1, h1, h2]
    exact ⟨rfl, rfl⟩
  | complete =>
    rcases on_message_complete_cases p with h | ⟨acts, ar, h⟩ | h | h <;> rw [stepEv_complete_eq, h]
    · exact ⟨rfl, rfl⟩
    · exact ⟨rfl, rfl⟩
    · exact ⟨(check_pause_reading_obs _).2.1, (check_pause_reading_obs _).2.2.2.1⟩
    · exact ⟨(bodyPut_obs _ _ _).2.1, (bodyPut_obs _ _ _).2.2.2.1⟩

/-- A parse event either leaves the pipeline queue unchanged or appends
exactly the current request. -/
theorem stepEv_queue_cases (p : Proto) (e : Ev) :
    (stepEv p e).pipeline_queue = p.pipeline_queue ∨
    (stepEv p e).pipeline_queue = p.pipeline_queue ++ [p.curId] := by
  cases e with
  | begin id => exact Or.inl rfl
  | header n v =>
    obtain ⟨hdrs, up, acts, h⟩ := on_header_cases p n v
    rw [stepEv_header_eq, h]
    exact Or.inl rfl
  | body b =>
    obtain ⟨X, h, _, _, hc⟩ := on_body_cases p b
    rw [stepEv_body_eq, h, (bodyPut_obs _ _ _).2.2.1]
    rcases hc with ⟨hq, _⟩ | ⟨hq, _⟩
    · exact Or.inl hq
    · exact Or.inr hq
  | complete =>
    rcases on_message_complete_cases p with h | ⟨acts, ar, h⟩ | h | h <;> rw [stepEv_complete_eq, h]
    · exact Or.inl rfl
    · exact Or.inl rfl
    · rw [(check_pause_reading_obs _).2.2.1]
      exact Or.inr rfl
    · rw [(bodyPut_obs _ _ _).2.2.1]
      exact Or.inl rfl

/-- No parse event ever resumes reading. -/
theorem stepEv_paused_mono (p : Proto) (e : Ev) (h : p.read_paused = true) :
    (stepEv p e).read_paused = true := by
  cases e with
  | begin id => exact h
  | header n v =>
    obtain ⟨hdrs, up, acts, he⟩ := on_header_cases p n v
    rw [stepEv_header_eq, he]
    exact h
  | body b =>
    obtain ⟨X, he, _, _, hc⟩ := on_body_cases p b
    rw [stepEv_body_eq, he]
    apply bodyPut_paused_mono
    rcases hc with ⟨_, hr⟩ | ⟨_, hX⟩
    · rw [hr]
      exact h
    · rw [hX]
      exact check_pause_reading_paused_mono _ (by exact h)
  | complete =>
    rcases on_message_complete_cases p with he | ⟨acts, ar, he⟩ | he | he <;>
        rw [stepEv_complete_eq, he]
    · exact h
    · exact h
    · exact check_pause_reading_paused_mono _ h
    · exact bodyPut_paused_mono _ _ _ h

/-- When a parse event grows the pipeline queue to at least the
configured capacity on a live transport, reading ends up paused. -/
theorem stepEv_pause_at_cap (p : Proto) (e : Ev) (ht : p.transport = true)
    (hgt : (stepEv p e).pipeline_queue.length > p.pipeline_queue.length)
    (hcap : (stepEv p e).pipeline_queue.length ≥ p.max_pipelined_requests) :
    (stepEv p e).read_paused = true := by
  cases e with
  | begin id => exact absurd hgt (by simp [stepEv, on_message_begin])
  | header n v =>
    obtain ⟨hdrs, up, acts, he⟩ := on_header_cases p n v
    rw [stepEv_header_eq, he] at hgt
    exact absurd hgt (by simp)
  | body b =>
    obtain ⟨X, he, hXt, hXm, hc⟩ := on_body_cases p b
    rcases hc with ⟨hq, _⟩ | ⟨hq, hX⟩
    · rw [stepEv_body_eq, he, (bodyPut_obs _ _ _).2.2.1, hq] at hgt
      exact absurd hgt (by simp)
    · rw [stepEv_body_eq, he]
      apply bodyPut_paused_mono
      rw [hX]
      apply check_pause_reading_at_cap
      · exact ht
      · rw [stepEv_body_eq, he, (bodyPut_obs _ _ _).2.2.1, hq] at hcap
        exact hcap
  | complete =>
    rcases on_message_complete_cases p with he | ⟨acts, ar, he⟩ | he | he
    · rw [stepEv_complete_eq, he] at hgt
      exact absurd hgt (by simp)
    · rw [stepEv_complete_eq, he] at hgt
      exact absurd hgt (by simp)
    · rw [stepEv_complete_eq, he]
      apply check_pause_reading_at_cap
      · exact ht
      · rw [stepEv_complete_eq, he, (check_pause_reading_obs _).2.2.1] at hcap
        exact hcap
    · rw [stepEv_complete_eq, he, (bodyPut_obs _ _ _).2.2.1] at hgt
      exact absurd hgt (by simp)

theorem processEvents_cons (p : Proto) (e : Ev) (evs : List Ev) :
    processEvents p (e :: evs) = processEvents (stepEv p e) evs := rfl

theorem processEvents_queue_le (evs : List Ev) (p : Proto) :
    (processEvents p evs).pipeline_queue.length ≤ p.pipeline_queue.length + evs.length := by
  induction evs generalizing p with
  | nil => simp [processEvents]
  | cons e evs ih =>
    have h1 := ih (stepEv p e)
    have h2 : (stepEv p e).pipeline_queue.length ≤ p.pipeline_queue.length + 1 := by
      rcases stepEv_queue_cases p e with h | h <;> rw [h] <;> simp
    rw [processEvents_cons]
    calc (processEvents (stepEv p e) evs).pipeline_queue.length
        ≤ (stepEv p e).pipeline_queue.length + evs.length := h1
      _ ≤ (p.pipeline_queue.length + 1) + evs.length := by omega
      _ = p.pipeline_queue.length + (e :: evs).length := by simp [List.length_cons]; omega

/-- Along any run of parse events on a live transport, the invariant
"queue at capacity implies reading paused" is preserved. -/
theorem processEvents_pause_inv (evs : List Ev) (p : Proto) (ht : p.transport = true)
    (hp : p.pipeline_queue.length ≥ p.max_pipelined_requests → p.read_paused = true) :
    (processEvents p evs).pipeline_queue.length ≥
      (processEvents p evs).max_pipelined_requests →
    (processEvents p evs).read_paused = true := by
  induction evs generalizing p with
  | nil => exact hp
  | cons e evs ih =>
    rw [processEvents_cons]
    apply ih (stepEv p e)
    · rw [(stepEv_obs p e).1]
      exact ht
    · intro hcap'
      rcases stepEv_queue_cases p e with h | h
      · apply stepEv_paused_mono
        apply hp
        rw [h, (stepEv_obs p e).2] at hcap'
        exact hcap'
      · apply stepEv_pause_at_cap p e ht
        · rw [h]
          simp
        · rw [(stepEv_obs p e).2] at hcap'
          exact hcap'

/-- Counterexample to claim C4: a single data chunk carrying 22
back-to-back bodiless requests, fed to a fresh connection, leaves 21
requests in the pipeline queue while `max_pipelined_requests` is 20:
the pause takes effect only between `data_received` calls, so the
claimed bound `len(pending) ≤ max_pipelined_requests` is violated. -/
theorem c4_counterexample :
    ((processEvents initProto
        ((List.range 22).foldr (fun i acc => Ev.begin i :: Ev.complete :: acc) [])).pipeline_queue.length,
     (processEvents initProto
        ((List.range 22).foldr (fun i acc => Ev.begin i :: Ev.complete :: acc) [])).max_pipelined_requests) =
      (21, 20) := by
  rfl

/-- Claim C4 amended: within one delivered data chunk the pending
pipeline queue can exceed `max_pipelined_requests` — it grows by at
most one request per parse event — and whenever processing a chunk
takes the queue from below capacity to at-or-above capacity, reading
ends up paused, so no further chunks are delivered to the parser. -/
theorem c4_pipeline_bound (p : Proto) (evs : List Ev) (ht : p.transport = true) :
    (processEvents p evs).pipeline_queue.length ≤ p.pipeline_queue.length + evs.length ∧
    (p.pipeline_queue.length < p.max_pipelined_requests →
      (processEvents p evs).pipeline_queue.length ≥
        (processEvents p evs).max_pipelined_requests →
      (processEvents p evs).read_paused = true) := by
  constructor
  · exact processEvents_queue_le evs p
  · intro hlt
    exact processEvents_pause_inv evs p ht (fun hge => absurd hlt (Nat.not_lt.mpr hge))

/-- Witness for the amended C4: one bodiless request on a fresh
connection keeps the queue within the event-count bound. -/
theorem c4_pipeline_bound_witness :
    (processEvents initProto [Ev.begin 0, Ev.complete]).pipeline_queue.length ≤
      initProto.pipeline_queue.length + [Ev.begin 0, Ev.complete].length :=
  (c4_pipeline_bound initProto [Ev.begin 0, Ev.complete] rfl).1

theorem on_header_actions_ext (p : Proto) (n v : String) :
    ∃ t, (on_header p n v).actions = p.actions ++ t := by
  unfold on_header
  dsimp only
  split
  · exact ⟨[], by simp⟩
  · split
    · exact ⟨[Action.write continueBytes], rfl⟩
    · exact ⟨[], by simp⟩

theorem on_body_actions_ext (p : Proto) (b : String) :
    ∃ t, (on_body p b).actions = p.actions ++ t := by
  unfold on_body
  dsimp only
  rw [(bodyPut_obs _ _ _).1]
  split
  · split
    · exact ⟨[Action.dispatch p.curId], rfl⟩
    · rw [(check_pause_reading_obs _).1]
      exact ⟨[], by simp⟩
  · exact ⟨[], by simp⟩

theorem on_message_complete_actions_ext (p : Proto) :
    ∃ t, (on_message_complete p).actions = p.actions ++ t := by
  unfold on_message_complete
  split
  · exact ⟨[], by simp⟩
  · split
    · split
      · exact ⟨[Action.dispatch p.curId], rfl⟩
      · rw [(check_pause_reading_obs _).1]
        exact ⟨[], by simp⟩
    · rw [(bodyPut_obs _ _ _).1]
      exact ⟨[], by simp⟩

theorem stepEv_actions_ext (p : Proto) (e : Ev) :
    ∃ t, (stepEv p e).actions = p.actions ++ t := by
  cases e with
  | begin id => exact ⟨[], by simp [stepEv, on_message_begin]⟩
  | header n v => exact on_header_actions_ext p n v
  | body b => exact on_body_actions_ext p b
  | complete => exact on_message_complete_actions_ext p

theorem send_actions_ext (p : Proto) (m : Message) (q : Proto)
    (h : send p m = Except.ok q) : ∃ t, q.actions = p.actions ++ t := by
  by_cases ht : p.transport = false
  · rw [send_eq_of_transport_none p m ht] at h
    cases h
    exact ⟨[], by simp⟩
  · have ht' : p.transport = true := by
      revert ht
      cases p.transport <;> simp
    cases hs : m.status with
    | none =>
      rw [send_eq_of_none p m ht' hs] at h
      cases h
      cases hm : m.more_content
      · simp only [Bool.false_eq_true, if_false]
        obtain ⟨t, ha, _, _, _⟩ := sendFinish_spec (sendContent p m)
        have hsc : (sendContent p m).actions =
            p.actions ++ contentActs p.use_chunked_encoding m.content := by
          rw [sendContent_spec]
        refine ⟨contentActs p.use_chunked_encoding m.content ++
          ((if (sendContent p m).use_chunked_encoding then [Action.write "0\r\n\r\n"] else []) ++ t), ?_⟩
        rw [ha, hsc]
        simp [List.append_assoc]
      · simp only [if_true]
        refine ⟨contentActs p.use_chunked_encoding m.content, ?_⟩
        rw [sendContent_spec]
    | some s =>
      cases hsl : STATUS_LINE s with
      | none =>
        rw [send_eq_keyError p m s ht' hs hsl] at h
        cases h
      | some sl =>
        rw [send_eq_of_some p m s sl ht' hs hsl] at h
        cases h
        obtain ⟨ka, hhead⟩ := sendHead_spec p m sl
        have hha : (sendHead p m sl).actions = p.actions ++ [Action.write
            (sl ++ SERVER_HEADER ++ p.dateHeader ++
             String.join (m.headers.map renderHeader) ++
             (if seenContentLength m.headers then ""
              else if m.more_content then "transfer-encoding: chunked\r\n"
              else "content-length: " ++ toString m.content.length ++ "\r\n") ++ "\r\n")] := by
          rw [hhead]
        have hsc : (sendContent (sendHead p m sl) m).actions =
            (sendHead p m sl).actions ++
              contentActs (sendHead p m sl).use_chunked_encoding m.content := by
          rw [sendContent_spec]
        cases hm : m.more_content
        · simp only [Bool.false_eq_true, if_false]
          obtain ⟨t, ha, _, _, _⟩ := sendFinish_spec (sendContent (sendHead p m sl) m)
          refine ⟨[Action.write
            (sl ++ SERVER_HEADER ++ p.dateHeader ++
             String.join (m.headers.map renderHeader) ++
             (if seenContentLength m.headers then ""
              else if m.more_content then "transfer-encoding: chunked\r\n"
              else "content-length: " ++ toString m.content.length ++ "\r\n") ++ "\r\n")] ++ (contentActs (sendHead p m sl).use_chunked_encoding m.content ++
            ((if (sendContent (sendHead p m sl) m).use_chunked_encoding then
                [Action.write "0\r\n\r\n"] else []) ++ t)), ?_⟩
          rw [ha, hsc, hha]
          simp [List.append_assoc]
        · simp only [if_true]
          refine ⟨[Action.write
            (sl ++ SERVER_HEADER ++ p.dateHeader ++
             String.join (m.headers.map renderHeader) ++
             (if seenContentLength m.headers then ""
              else if m.more_content then "transfer-encoding: chunked\r\n"
              else "content-length: " ++ toString m.content.length ++ "\r\n") ++ "\r\n")] ++ contentActs (sendHead p m sl).use_chunked_encoding m.content, ?_⟩
          rw [hsc, hha]
          simp [List.append_assoc]

theorem stepInp_appSend_eq (p : Proto) (m : Message) :
    stepInp p (Inp.appSend m) =
      match send p m with
      | Except.ok q => q
      | Except.error _ => p := rfl

theorem stepInp_actions_ext (p : Proto) (i : Inp) :
    ∃ t, (stepInp p i).actions = p.actions ++ t := by
  cases i with
  | ev e => exact stepEv_actions_ext p e
  | appSend m =>
    rw [stepInp_appSend_eq]
    cases hm : send p m with
    | ok q =>
      exact send_actions_ext p m q hm
    | error e =>
      exact ⟨[], by simp⟩

theorem run_actions_ext (l : List Inp) (p : Proto) :
    ∃ t, (run p l).actions = p.actions ++ t := by
  induction l generalizing p with
  | nil => exact ⟨[], by simp [run]⟩
  | cons i l ih =>
    obtain ⟨t1, h1⟩ := stepInp_actions_ext p i
    obtain ⟨t2, h2⟩ := ih (stepInp p i)
    refine ⟨t1 ++ t2, ?_⟩
    show (run (stepInp p i) l).actions = _
    rw [h2, h1]
    simp [List.append_assoc]

theorem run_append (p : Proto) (l1 l2 : List Inp) :
    run p (l1 ++ l2) = run (run p l1) l2 := by
  unfold run
  rw [List.foldl_append]

/-- Processing an `expect: 100-continue` header event appends exactly
the `100 Continue` write. -/
theorem run_header_expect (p : Proto) (n v : String)
    (hn : strLower n = "expect") (hv : strLower v = "100-continue") :
    (stepEv p (Ev.header n v)).actions = p.actions ++ [Action.write continueBytes] := by
  rw [stepEv_header_eq]
  unfold on_header
  dsimp only
  rw [hn, hv]
  rw [if_neg (by decide), if_pos ⟨rfl, rfl⟩]

/-- Claim C9: on every run of the connection machine, when the parser
reports an `expect: 100-continue` header of a request that has not yet
been dispatched, the `HTTP/1.1 100 Continue\r\n\r\n` bytes are written
at that instant, so every dispatch of that request — whether directly
at its first body byte or message completion, or later by pipeline
promotion inside a `send` — occurs after the `100 Continue` write is
already on the wire. -/
theorem c9_continue_before_dispatch (p0 : Proto) (pre post : List Inp) (id : Nat)
    (n v : String) (hn : strLower n = "expect") (hv : strLower v = "100-continue")
    (hnd : Action.dispatch id ∉ (run p0 pre).actions) :
    ∃ l1 l2, (run p0 (pre ++ Inp.ev (Ev.header n v) :: post)).actions =
        l1 ++ Action.write continueBytes :: l2 ∧ Action.dispatch id ∉ l1 := by
  have hsplit : pre ++ Inp.ev (Ev.header n v) :: post =
      (pre ++ [Inp.ev (Ev.header n v)]) ++ post := by
    simp
  rw [hsplit, run_append, run_append]
  have hH : (run (run p0 pre) [Inp.ev (Ev.header n v)]).actions =
      (run p0 pre).actions ++ [Action.write continueBytes] :=
    run_header_expect (run p0 pre) n v hn hv
  obtain ⟨t, hT⟩ := run_actions_ext post (run (run p0 pre) [Inp.ev (Ev.header n v)])
  refine ⟨(run p0 pre).actions, t, ?_, hnd⟩
  rw [hT, hH]
  simp

/-- Witness for C9: a `GET` with `Expect: 100-continue` on a fresh
connection. -/
theorem c9_continue_before_dispatch_witness :
    ∃ l1 l2, (run initProto ([Inp.ev (Ev.begin 0)] ++
        Inp.ev (Ev.header "Expect" "100-continue") :: [Inp.ev Ev.complete])).actions =
      l1 ++ Action.write continueBytes :: l2 ∧ Action.dispatch 0 ∉ l1 :=
  c9_continue_before_dispatch initProto [Inp.ev (Ev.begin 0)] [Inp.ev Ev.complete] 0
    "Expect" "100-continue" (by decide) (by decide) (by decide)

end Uvicorn

namespace Lifespan

/-- Claim C7: in lifespan mode `auto`, when the application raises
before responding to the startup message, the coordinator records the
error but `should_exit` stays `false` (the exit branch requires mode
`"on"` or an explicit `startup.failed`), so the server keeps serving;
and the shutdown step returns early on `error_occured`, never queueing
a `lifespan.shutdown` message to the application. -/
theorem c7_auto_unsupported_lifespan :
    (lifespanShutdown (startupFinish (mainRaise (startupBegin
        (initLifespan "auto"))))).should_exit = false ∧
    "lifespan.shutdown" ∉
      (lifespanShutdown (startupFinish (mainRaise (startupBegin
        (initLifespan "auto"))))).receive_queue := by
  decide

/-- Counterexample to claim C8: after startup completed and shutdown is
pending, the claim says `lifespan.shutdown.failed` is accepted as a
valid completion; in fact the leading assert of `LifespanOn.send` lists
only `lifespan.startup.complete`, `lifespan.startup.failed` and
`lifespan.shutdown.complete`, so `lifespan.shutdown.failed` raises an
`AssertionError` like any unknown type. -/
theorem c8_counterexample :
    lifespanSend (LifespanOn.mk "auto" true false [] false false)
        "lifespan.shutdown.failed" = Except.error LifespanErr.invalidMessage := by
  rfl

/-- Claim C8 amended: during the shutdown handshake (startup event set,
shutdown event not yet set) the coordinator accepts exactly
`lifespan.shutdown.complete` as completion, while every message type
outside the three-element accepted set — including
`lifespan.shutdown.failed` — is a protocol error (a failed assert). -/
theorem c8_shutdown_accepts (st : LifespanOn) (h1 : st.startup_event = true)
    (h2 : st.shutdown_event = false) :
    lifespanSend st "lifespan.shutdown.complete" =
      Except.ok { st with shutdown_event := true } ∧
    (∀ m, m ≠ "lifespan.startup.complete" → m ≠ "lifespan.startup.failed" →
      m ≠ "lifespan.shutdown.complete" →
      lifespanSend st m = Except.error LifespanErr.invalidMessage) := by
  constructor
  · unfold lifespanSend
    rw [if_neg (by simp), if_neg (by simp), if_neg (by simp)]
    rw [if_neg]
    intro hc
    rcases hc with hc | hc
    · rw [h1] at hc
      cases hc
    · rw [h2] at hc
      cases hc
  · intro m hm1 hm2 hm3
    unfold lifespanSend
    rw [if_pos ⟨hm1, hm2, hm3⟩]

/-- Witness for the amended C8 in the post-startup state. -/
theorem c8_shutdown_accepts_witness :
    lifespanSend (LifespanOn.mk "auto" true false [] false false)
        "lifespan.shutdown.complete" =
      Except.ok { LifespanOn.mk "auto" true false [] false false with shutdown_event := true } :=
  (c8_shutdown_accepts (LifespanOn.mk "auto" true false [] false false) rfl rfl).1

end Lifespan
